import Mathlib

/-!
Verification of the asynchronous completion-tracking layer of the
automation provider (`src/chrome/browser/automation/automation_provider.cc`).

The embedding models each self-deleting notification observer as an explicit
state machine: processing one notification yields the successor state together
with the list of reply messages passed to `AutomationProvider::Send` during
that step.  Destruction of an observer is a separate function on states.
-/

namespace Automation

/-- The notification types the `NavigationNotificationObserver` registers for:
`NAV_ENTRY_COMMITTED`, `LOAD_START`, `LOAD_STOP`, `AUTH_NEEDED`,
`AUTH_SUPPLIED`. -/
inductive NavEvent
  | navEntryCommitted
  | loadStart
  | loadStop
  | authSupplied
  | authNeeded
deriving DecidableEq, Repr

/-- `AutomationMsg_NavigationResponseValues` written into navigation reply
messages. -/
inductive NavResponse
  | success
  | authNeeded
  | error
deriving DecidableEq, Repr

/-- State of a `NavigationNotificationObserver`: the fields
`navigations_remaining_` and `navigation_started_`, whether `reply_message_`
is still non-null, and whether the object is still live (it deletes itself
in `ConditionMet`). -/
structure NavObserver where
  navigationsRemaining : Int
  navigationStarted : Bool
  replyHeld : Bool
  alive : Bool
deriving DecidableEq, Repr

/-- Constructor state: `navigations_remaining_ = number_of_navigations`,
`navigation_started_ = false`, owning a live reply message. -/
def NavObserver.init (n : Int) : NavObserver :=
  { navigationsRemaining := n, navigationStarted := false,
    replyHeld := true, alive := true }

/-- `NavigationNotificationObserver::ConditionMet`: writes the result into the
reply message, sends it, nulls `reply_message_` and deletes the observer. -/
def conditionMet (s : NavObserver) (r : NavResponse) :
    NavObserver × List NavResponse :=
  ({ s with replyHeld := false, alive := false }, [r])

/-- `NavigationNotificationObserver::Observe`, line by line:
`NAV_ENTRY_COMMITTED` or `LOAD_START` set `navigation_started_`;
`LOAD_STOP` while started clears the flag, decrements
`navigations_remaining_` and fires `ConditionMet(SUCCESS)` when it reaches
zero; `AUTH_SUPPLIED` re-marks the navigation as started; `AUTH_NEEDED`
while started fires `ConditionMet(AUTH_NEEDED)`.  A deleted observer is
unsubscribed, so it sees no further events. -/
def navObserve (s : NavObserver) (e : NavEvent) :
    NavObserver × List NavResponse :=
  if s.alive then
    match e with
    | NavEvent.navEntryCommitted => ({ s with navigationStarted := true }, [])
    | NavEvent.loadStart => ({ s with navigationStarted := true }, [])
    | NavEvent.loadStop =>
        if s.navigationStarted then
          let s' := { s with navigationStarted := false,
                             navigationsRemaining := s.navigationsRemaining - 1 }
          if s'.navigationsRemaining = 0 then conditionMet s' NavResponse.success
          else (s', [])
        else (s, [])
    | NavEvent.authSupplied => ({ s with navigationStarted := true }, [])
    | NavEvent.authNeeded =>
        if s.navigationStarted then
          conditionMet { s with navigationStarted := false } NavResponse.authNeeded
        else (s, [])
  else (s, [])

/-- Deliver a sequence of notifications to a navigation observer, collecting
every reply sent along the way. -/
def navRun : NavObserver → List NavEvent → NavObserver × List NavResponse
  | s, [] => (s, [])
  | s, e :: es =>
      let p := navObserve s e
      let q := navRun p.1 es
      (q.1, p.2 ++ q.2)

/-- `~NavigationNotificationObserver`: if the reply message is still held,
write `AUTOMATION_MSG_NAVIGATION_ERROR` into it and send it. -/
def navDestroy (s : NavObserver) : List NavResponse :=
  if s.replyHeld then [NavResponse.error] else []

/-- `N` load-start / load-stop event pairs. -/
def navPairs : Nat → List NavEvent
  | 0 => []
  | n + 1 => NavEvent.loadStart :: NavEvent.loadStop :: navPairs n

lemma navRun_append (s : NavObserver) (es fs : List NavEvent) :
    navRun s (es ++ fs) =
      ((navRun (navRun s es).1 fs).1,
       (navRun s es).2 ++ (navRun (navRun s es).1 fs).2) := by
  induction es generalizing s with
  | nil => simp [navRun]
  | cons e es ih => simp [navRun, ih, List.append_assoc]

lemma navRun_pair_step (r : Int) (hr : r - 1 ≠ 0) (es : List NavEvent) :
    navRun (NavObserver.init r) (NavEvent.loadStart :: NavEvent.loadStop :: es)
      = navRun (NavObserver.init (r - 1)) es := by
  simp [navRun, navObserve, NavObserver.init, conditionMet, if_neg hr]

lemma navRun_pairs_lt (m : Nat) : ∀ n : Nat, m < n →
    navRun (NavObserver.init (n : Int)) (navPairs m)
      = (NavObserver.init ((n : Int) - m), []) := by
  induction m with
  | zero =>
      intro n _
      simp [navPairs, navRun]
  | succ k ih =>
      intro n hn
      have h2 : (2 : Nat) ≤ n := by omega
      have hne : (n : Int) - 1 ≠ 0 := by
        have : (2 : Int) ≤ (n : Int) := by exact_mod_cast h2
        omega
      have hk : k < n - 1 := by omega
      have ih' := ih (n - 1) hk
      have hcast : ((n - 1 : Nat) : Int) = (n : Int) - 1 := by
        have h1 : (1 : Nat) ≤ n := by omega
        push_cast [h1]
        ring
      rw [hcast] at ih'
      show navRun _ (NavEvent.loadStart :: NavEvent.loadStop :: navPairs k) = _
      rw [navRun_pair_step _ hne]
      have h3 : (n : Int) - (↑(k + 1) : Int) = (n : Int) - 1 - (k : Int) := by
        push_cast
        ring
      rw [h3]
      exact ih'

lemma navRun_pairs_full (n : Nat) (h : 1 ≤ n) :
    navRun (NavObserver.init (n : Int)) (navPairs n)
      = ({ navigationsRemaining := 0, navigationStarted := false,
           replyHeld := false, alive := false }, [NavResponse.success]) := by
  induction n with
  | zero => omega
  | succ k ih =>
      by_cases hk : k = 0
      · subst hk
        decide
      · have h1 : 1 ≤ k := by omega
        have hne : ((k + 1 : Nat) : Int) - 1 ≠ 0 := by
          have : (1 : Int) ≤ (k : Int) := by exact_mod_cast h1
          push_cast
          omega
        show navRun _ (NavEvent.loadStart :: NavEvent.loadStop :: navPairs k) = _
        rw [navRun_pair_step _ hne]
        have hcast : ((k + 1 : Nat) : Int) - 1 = ((k : Nat) : Int) := by
          push_cast
          ring
        rw [hcast]
        exact ih h1

lemma navPairs_take_even (m : Nat) : ∀ n : Nat, m ≤ n →
    (navPairs n).take (2 * m) = navPairs m := by
  induction m with
  | zero =>
      intro n _
      rw [Nat.mul_zero]
      rfl
  | succ k ih =>
      intro n hn
      obtain ⟨j, rfl⟩ : ∃ j, n = j + 1 := ⟨n - 1, by omega⟩
      have : 2 * (k + 1) = 2 * k + 1 + 1 := by ring
      rw [this]
      simp [navPairs, List.take_succ_cons, ih j (by omega)]

lemma navPairs_take_odd (m : Nat) : ∀ n : Nat, m < n →
    (navPairs n).take (2 * m + 1) = navPairs m ++ [NavEvent.loadStart] := by
  induction m with
  | zero =>
      intro n hn
      obtain ⟨j, rfl⟩ : ∃ j, n = j + 1 := ⟨n - 1, by omega⟩
      simp [navPairs]
  | succ k ih =>
      intro n hn
      obtain ⟨j, rfl⟩ : ∃ j, n = j + 1 := ⟨n - 1, by omega⟩
      have : 2 * (k + 1) + 1 = 2 * k + 1 + 1 + 1 := by ring
      rw [this]
      simp [navPairs, List.take_succ_cons, ih j (by omega)]

/-- C2: a navigation observer constructed with remaining count `N ≥ 1`,
fed `N` load-start/load-stop pairs, sends exactly the single reply
`AUTOMATION_MSG_NAVIGATION_SUCCESS`, on the `N`-th load-stop; on every
proper prefix of that event sequence it has sent nothing. -/
theorem nav_observer_completes_on_nth_stop (n : Nat) (h : 1 ≤ n) :
    (navRun (NavObserver.init (n : Int)) (navPairs n)).2 = [NavResponse.success] ∧
    ∀ k, k < 2 * n →
      (navRun (NavObserver.init (n : Int)) ((navPairs n).take k)).2 = [] := by
  constructor
  · rw [navRun_pairs_full n h]
  · intro k hk
    rcases Nat.even_or_odd k with ⟨m, hm⟩ | ⟨m, hm⟩
    · have hmn : m ≤ n := by omega
      rw [hm, show m + m = 2 * m by ring, navPairs_take_even m n hmn]
      rcases Nat.lt_or_ge m n with hlt | hge
      · rw [navRun_pairs_lt m n hlt]
      · have : m = n := by omega
        omega
    · have hmn : m < n := by omega
      rw [hm, navPairs_take_odd m n hmn, navRun_append,
          navRun_pairs_lt m n hmn]
      simp [navRun, navObserve, NavObserver.init]

theorem nav_observer_completes_on_nth_stop_witness :
    (navRun (NavObserver.init (2 : Nat)) (navPairs 2)).2 = [NavResponse.success] ∧
    (navRun (NavObserver.init (2 : Nat)) ((navPairs 2).take 3)).2 = [] :=
  ⟨(nav_observer_completes_on_nth_stop 2 (by decide)).1,
   (nav_observer_completes_on_nth_stop 2 (by decide)).2 3 (by decide)⟩

lemma navObserve_step (s : NavObserver) (e : NavEvent) (h1 : s.replyHeld = true)
    (h2 : s.alive = true) :
    ((navObserve s e).1.replyHeld = true ∧ (navObserve s e).1.alive = true ∧
      (navObserve s e).2 = []) ∨
    ((navObserve s e).1.replyHeld = false ∧ (navObserve s e).1.alive = false ∧
      (navObserve s e).2.length = 1) := by
  cases e <;> simp [navObserve, conditionMet, h1, h2] <;> split_ifs <;>
    simp [h1, h2]

lemma navRun_dead (s : NavObserver) (es : List NavEvent) (h : s.alive = false) :
    navRun s es = (s, []) := by
  induction es with
  | nil => rfl
  | cons e es ih => simp [navRun, navObserve, h, ih]

lemma navRun_reply_inv (es : List NavEvent) : ∀ s : NavObserver,
    s.replyHeld = true → s.alive = true →
    ((navRun s es).1.replyHeld = true ∧ (navRun s es).2 = []) ∨
    ((navRun s es).1.replyHeld = false ∧ (navRun s es).2.length = 1) := by
  induction es with
  | nil =>
      intro s h1 _
      exact Or.inl ⟨h1, rfl⟩
  | cons e es ih =>
      intro s h1 h2
      rcases navObserve_step s e h1 h2 with ⟨ha, hb, hc⟩ | ⟨ha, hb, hc⟩
      · have hstep : navRun s (e :: es) = navRun (navObserve s e).1 es := by
          simp [navRun, hc]
        rw [hstep]
        exact ih (navObserve s e).1 ha hb
      · have hstep : navRun s (e :: es) = ((navObserve s e).1, (navObserve s e).2) := by
          simp [navRun, navRun_dead _ es hb]
        rw [hstep]
        exact Or.inr ⟨ha, hc⟩

/-- C3: whenever a navigation observer is destroyed while its reply message is
still held (it never reached `ConditionMet`), the destructor writes
`AUTOMATION_MSG_NAVIGATION_ERROR` and sends it, so over the whole lifetime —
any delivered event sequence followed by destruction — exactly one reply,
the error reply, is sent; no pending reply is dropped silently. -/
theorem nav_observer_destructor_sends_error (n : Nat) (es : List NavEvent)
    (h : (navRun (NavObserver.init (n : Int)) es).1.replyHeld = true) :
    navDestroy (navRun (NavObserver.init (n : Int)) es).1 = [NavResponse.error] ∧
    (navRun (NavObserver.init (n : Int)) es).2 ++
      navDestroy (navRun (NavObserver.init (n : Int)) es).1 = [NavResponse.error] := by
  have hinv := navRun_reply_inv es (NavObserver.init (n : Int)) rfl rfl
  rcases hinv with ⟨_, h2⟩ | ⟨h1, _⟩
  · constructor
    · simp [navDestroy, h]
    · simp [navDestroy, h, h2]
  · rw [h1] at h
    exact absurd h (by simp)

theorem nav_observer_destructor_sends_error_witness :
    navDestroy (navRun (NavObserver.init ((1 : Nat) : Int))
        [NavEvent.loadStart]).1 = [NavResponse.error] ∧
    (navRun (NavObserver.init ((1 : Nat) : Int)) [NavEvent.loadStart]).2 ++
      navDestroy (navRun (NavObserver.init ((1 : Nat) : Int))
        [NavEvent.loadStart]).1 = [NavResponse.error] :=
  nav_observer_destructor_sends_error 1 [NavEvent.loadStart] (by decide)

/-- The notifications `BrowserCountChangeNotificationObserver` registers for:
`BROWSER_OPENED` and `BROWSER_CLOSED`. -/
inductive BrowserEvent
  | opened
  | closed
deriving DecidableEq, Repr

/-- State of a `BrowserCountChangeNotificationObserver`: its `target_count_`,
whether `reply_message_` is still non-null, and whether the object is still
live (it deletes itself after replying). -/
structure BrowserCountObserver where
  targetCount : Int
  replyHeld : Bool
  alive : Bool
deriving DecidableEq, Repr

def BrowserCountObserver.init (t : Int) : BrowserCountObserver :=
  { targetCount := t, replyHeld := true, alive := true }

/-- The count comparison of `BrowserCountChangeNotificationObserver::Observe`:
at `BROWSER_CLOSED` time the closing browser is still in `BrowserList`, so
the effective count is `current_count - 1`; at `BROWSER_OPENED` it is the
reported count itself. -/
def adjustedCount (e : BrowserEvent) (currentCount : Int) : Int :=
  match e with
  | BrowserEvent.closed => currentCount - 1
  | BrowserEvent.opened => currentCount

/-- `BrowserCountChangeNotificationObserver::Observe`: recompute the adjusted
count; if it equals `target_count_`, reply `true`, send, and `delete this`. -/
def browserCountObserve (s : BrowserCountObserver) (e : BrowserEvent × Int) :
    BrowserCountObserver × List Bool :=
  if s.alive then
    if adjustedCount e.1 e.2 = s.targetCount then
      ({ s with replyHeld := false, alive := false }, [true])
    else (s, [])
  else (s, [])

/-- Deliver a sequence of (event, reported `BrowserList::size()`) pairs. -/
def browserCountRun :
    BrowserCountObserver → List (BrowserEvent × Int) →
      BrowserCountObserver × List Bool
  | s, [] => (s, [])
  | s, e :: es =>
      let p := browserCountObserve s e
      let q := browserCountRun p.1 es
      (q.1, p.2 ++ q.2)

lemma browserCountRun_dead (s : BrowserCountObserver)
    (es : List (BrowserEvent × Int)) (h : s.alive = false) :
    browserCountRun s es = (s, []) := by
  induction es with
  | nil => rfl
  | cons e es ih => simp [browserCountRun, browserCountObserve, h, ih]

/-- C4: the browser-count observer compares `count - 1` against the target on
a close event and `count` on an open event; over any delivered sequence it
sends the single reply `true` exactly when some event's adjusted count hits
the target (so it fires the first such time, then self-destructs and can
never reply again), and otherwise sends nothing. -/
theorem browser_count_observer_replies_once (t : Int)
    (evs : List (BrowserEvent × Int)) :
    (browserCountRun (BrowserCountObserver.init t) evs).2 =
      if evs.any (fun e => adjustedCount e.1 e.2 = t) then [true] else [] := by
  induction evs with
  | nil => rfl
  | cons e es ih =>
      by_cases he : adjustedCount e.1 e.2 = t
      · have hstep : browserCountObserve (BrowserCountObserver.init t) e =
            ({ targetCount := t, replyHeld := false, alive := false }, [true]) := by
          simp [browserCountObserve, BrowserCountObserver.init, he]
        have hdead : browserCountRun
            { targetCount := t, replyHeld := false, alive := false } es =
            ({ targetCount := t, replyHeld := false, alive := false }, []) :=
          browserCountRun_dead _ es rfl
        simp [browserCountRun, hstep, hdead, List.any_cons, he]
      · have hstep : browserCountObserve (BrowserCountObserver.init t) e =
            (BrowserCountObserver.init t, []) := by
          simp [browserCountObserve, BrowserCountObserver.init, he]
        simp only [browserCountRun, hstep, List.nil_append, List.any_cons]
        rw [ih]
        simp only [decide_eq_false he, Bool.false_or]

/-- `FindInPageNotificationObserver::kFindInPageRequestId`: the fixed request
correlation id (only one search is in flight at a time). -/
def kFindInPageRequestId : Int := -1

/-- Payload of a `FIND_RESULT_AVAILABLE` notification
(`FindNotificationDetails`). -/
structure FindEvent where
  requestId : Int
  activeMatchOrdinal : Int
  numberOfMatches : Int
  finalUpdate : Bool
deriving DecidableEq, Repr

/-- State of a `FindInPageNotificationObserver`: the accumulated
`active_match_ordinal_` (initially `-1`) and whether `reply_message_` is
still non-null.  The observer is not deleted when it replies; only the
nulled reply message stops further replies. -/
structure FindObserver where
  activeMatchOrdinal : Int
  replyHeld : Bool
deriving DecidableEq, Repr

def FindObserver.init : FindObserver :=
  { activeMatchOrdinal := -1, replyHeld := true }

/-- `FindInPageNotificationObserver::Observe`: events with a foreign request
id are ignored; an ordinal `> -1` is recorded; on a final update, if the
reply message is still held the reply `(active_match_ordinal_,
number_of_matches)` is sent and the message nulled, otherwise the duplicate
final update is merely logged. -/
def findObserve (s : FindObserver) (e : FindEvent) :
    FindObserver × List (Int × Int) :=
  if e.requestId = kFindInPageRequestId then
    let s' := if e.activeMatchOrdinal > -1 then
        { s with activeMatchOrdinal := e.activeMatchOrdinal } else s
    if e.finalUpdate then
      if s'.replyHeld then
        ({ s' with replyHeld := false },
         [(s'.activeMatchOrdinal, e.numberOfMatches)])
      else (s', [])
    else (s', [])
  else (s, [])

/-- Deliver a sequence of find-result notifications. -/
def findRun : FindObserver → List FindEvent → FindObserver × List (Int × Int)
  | s, [] => (s, [])
  | s, e :: es =>
      let p := findObserve s e
      let q := findRun p.1 es
      (q.1, p.2 ++ q.2)

lemma findRun_append (s : FindObserver) (es fs : List FindEvent) :
    findRun s (es ++ fs) =
      ((findRun (findRun s es).1 fs).1,
       (findRun s es).2 ++ (findRun (findRun s es).1 fs).2) := by
  induction es generalizing s with
  | nil => simp [findRun]
  | cons e es ih => simp [findRun, ih, List.append_assoc]

/-- The last active-match ordinal observed over a run of events, ignoring
ordinals of `-1` (stated from the claim's wording). -/
def lastOrdinal (start : Int) (es : List FindEvent) : Int :=
  es.foldl
    (fun acc e => if e.activeMatchOrdinal > -1 then e.activeMatchOrdinal else acc)
    start

lemma findRun_partials (ps : List FindEvent)
    (hps : ∀ e ∈ ps, e.requestId = kFindInPageRequestId ∧ e.finalUpdate = false) :
    ∀ s : FindObserver,
      findRun s ps =
        ({ activeMatchOrdinal := lastOrdinal s.activeMatchOrdinal ps,
           replyHeld := s.replyHeld }, []) := by
  induction ps with
  | nil => intro s; rfl
  | cons e es ih =>
      intro s
      obtain ⟨hid, hfin⟩ := hps e (by simp)
      have ih' := ih (fun x hx => hps x (by simp [hx]))
      by_cases hord : e.activeMatchOrdinal > -1
      · have hstep : findObserve s e =
            ({ s with activeMatchOrdinal := e.activeMatchOrdinal }, []) := by
          simp [findObserve, hid, hfin, hord]
        simp [findRun, hstep, ih', lastOrdinal, hord]
      · have hstep : findObserve s e = (s, []) := by
          simp [findObserve, hid, hfin, hord]
        simp [findRun, hstep, ih', lastOrdinal, hord]

lemma findRun_released (es : List FindEvent) : ∀ s : FindObserver,
    s.replyHeld = false →
    (findRun s es).2 = [] ∧ (findRun s es).1.replyHeld = false := by
  induction es with
  | nil => intro s h; exact ⟨rfl, h⟩
  | cons e es ih =>
      intro s h
      have hstep : (findObserve s e).2 = [] ∧
          (findObserve s e).1.replyHeld = false := by
        unfold findObserve
        split_ifs <;> simp_all
      obtain ⟨h1, h2⟩ := hstep
      obtain ⟨h3, h4⟩ := ih (findObserve s e).1 h2
      refine ⟨?_, ?_⟩
      · simp [findRun, h1, h3]
      · simpa [findRun] using h4

/-- C5: after any number of partial (non-final) find results for the fixed
request id followed by one final update, the observer sends exactly one
reply — the last ordinal observed (ignoring `-1`s, the final event's own
ordinal included) paired with the final event's match count — and no event
delivered afterwards (in particular a duplicate final update) produces a
second reply. -/
theorem find_observer_single_reply (ps : List FindEvent) (f : FindEvent)
    (gs : List FindEvent)
    (hps : ∀ e ∈ ps, e.requestId = kFindInPageRequestId ∧ e.finalUpdate = false)
    (hf1 : f.requestId = kFindInPageRequestId) (hf2 : f.finalUpdate = true) :
    (findRun FindObserver.init (ps ++ f :: gs)).2 =
      [(lastOrdinal (-1) (ps ++ [f]), f.numberOfMatches)] := by
  have hps' := findRun_partials ps hps FindObserver.init
  simp only [FindObserver.init] at hps' ⊢
  rw [findRun_append, hps']
  set s1 : FindObserver :=
    { activeMatchOrdinal := lastOrdinal (-1) ps, replyHeld := true } with hs1
  have hfs : (findObserve s1 f).2 =
        [(lastOrdinal (-1) (ps ++ [f]), f.numberOfMatches)] ∧
      (findObserve s1 f).1.replyHeld = false := by
    have hlast : lastOrdinal (-1) (ps ++ [f]) =
        if f.activeMatchOrdinal > -1 then f.activeMatchOrdinal
        else lastOrdinal (-1) ps := by
      simp [lastOrdinal, List.foldl_append]
    by_cases hord : f.activeMatchOrdinal > -1 <;>
      simp [findObserve, hf1, hf2, hord, hs1, hlast]
  obtain ⟨hgs1, hgs2⟩ := findRun_released gs (findObserve s1 f).1 hfs.2
  simp [findRun, hfs.1, hgs1]

theorem find_observer_single_reply_witness :
    (findRun FindObserver.init
        ([{ requestId := -1, activeMatchOrdinal := 3, numberOfMatches := 5,
            finalUpdate := false }] ++
          { requestId := -1, activeMatchOrdinal := -1, numberOfMatches := 7,
            finalUpdate := true } ::
          [{ requestId := -1, activeMatchOrdinal := -1, numberOfMatches := 7,
             finalUpdate := true }])).2 =
      [(lastOrdinal (-1)
          ([{ requestId := -1, activeMatchOrdinal := 3, numberOfMatches := 5,
              finalUpdate := false }] ++
            [{ requestId := -1, activeMatchOrdinal := -1, numberOfMatches := 7,
               finalUpdate := true }]), 7)] :=
  find_observer_single_reply _ _ _ (by decide) (by decide) (by decide)

/-- Outcome of dispatching `AutomationProvider::CloseTab`: which boolean was
written into the reply message by `WriteReplyParams` (if any), the reply
messages actually passed to `AutomationProvider::Send`, and how many
completion observers were created. -/
structure CloseTabResult where
  replyWritten : Option Bool
  repliesSent : List Bool
  observersCreated : Nat
deriving DecidableEq, Repr

/-- `AutomationProvider::CloseTab`: if the tab tracker contains the handle, a
`TabClosedNotificationObserver` is created (taking the reply message) and the
tab is closed; otherwise `WriteReplyParams(reply_message, false)` is executed
— and the function returns without calling `Send`. -/
def closeTab (handleTracked : Bool) : CloseTabResult :=
  if handleTracked then
    { replyWritten := none, repliesSent := [], observersCreated := 1 }
  else
    { replyWritten := some false, repliesSent := [], observersCreated := 0 }

/-- C1 (code bug): `CloseTab` on an untracked handle writes `false` into the
reply message but sends nothing over the channel — the reply list is empty,
so the caller is left hanging, contradicting the spec's one-reply-per-command
guarantee honoured by every sibling handler. -/
theorem closeTab_untracked_sends_no_reply :
    (closeTab false).replyWritten = some false ∧
    (closeTab false).repliesSent = [] := by
  constructor <;> rfl

/-- Outcome of dispatching a navigation command. -/
structure NavigateResult where
  repliesSent : List NavResponse
  observersCreated : Nat
deriving DecidableEq, Repr

/-- `AutomationProvider::NavigateToURLBlockUntilNavigationsComplete`: when the
tab tracker contains the handle and a browser is found for the tab, a
navigation observer is registered (`AddNavigationStatusListener`) and no
immediate reply is sent; on either failure the function falls through to
`WriteReplyParams(reply_message, AUTOMATION_MSG_NAVIGATION_ERROR)` followed
by `Send(reply_message)`. -/
def navigateToURLBlockUntilNavigationsComplete
    (handleTracked : Bool) (browserFound : Bool) : NavigateResult :=
  if handleTracked then
    if browserFound then { repliesSent := [], observersCreated := 1 }
    else { repliesSent := [NavResponse.error], observersCreated := 0 }
  else { repliesSent := [NavResponse.error], observersCreated := 0 }

/-- C9: dispatching navigate-to-URL with a handle the tab tracker does not
contain sends exactly one immediate `AUTOMATION_MSG_NAVIGATION_ERROR` reply
and creates no navigation observer. -/
theorem navigate_untracked_error_reply (browserFound : Bool) :
    navigateToURLBlockUntilNavigationsComplete false browserFound =
      { repliesSent := [NavResponse.error], observersCreated := 0 } := by
  rfl

/-- Outcome of `AutomationProvider::WaitForBrowserWindowCountToBecome`. -/
structure WaitBrowserCountResult where
  repliesSent : List Bool
  observer : Option BrowserCountObserver
deriving DecidableEq, Repr

/-- `AutomationProvider::WaitForBrowserWindowCountToBecome`: if
`BrowserList::size()` already equals the target, reply `true` and send
immediately; otherwise create a self-deleting
`BrowserCountChangeNotificationObserver` that takes the reply message. -/
def waitForBrowserWindowCountToBecome (browserListSize targetCount : Int) :
    WaitBrowserCountResult :=
  if browserListSize = targetCount then
    { repliesSent := [true], observer := none }
  else
    { repliesSent := [],
      observer := some (BrowserCountObserver.init targetCount) }

/-- C10: when the live browser count already equals the target, the provider
sends exactly one immediate `true` reply and creates no observer; otherwise
it sends nothing and registers a count-target observer that still holds the
pending reply and carries the requested target. -/
theorem wait_browser_count_immediate_or_observer
    (browserListSize targetCount : Int) :
    waitForBrowserWindowCountToBecome browserListSize targetCount =
      (if browserListSize = targetCount then
        { repliesSent := [true], observer := none }
      else
        { repliesSent := [],
          observer := some (BrowserCountObserver.init targetCount) }) ∧
    (BrowserCountObserver.init targetCount).replyHeld = true ∧
    (BrowserCountObserver.init targetCount).targetCount = targetCount := by
  exact ⟨rfl, rfl, rfl⟩

/-- The fields of `net::ProxyConfig` that `SetProxyConfigTask` touches, with
the default-constructed values used for the fresh `net::ProxyConfig pc`. -/
structure ProxyConfig where
  autoDetect : Bool
  pacUrl : String
  proxyBypass : String
  proxyRules : String
deriving DecidableEq, Repr

/-- A default-constructed `net::ProxyConfig`: direct connection, no
auto-detect, empty PAC URL, bypass and proxy rules. -/
def ProxyConfig.fresh : ProxyConfig :=
  { autoDetect := false, pacUrl := "", proxyBypass := "", proxyRules := "" }

/-- The proxy-configuration document as seen through the dictionary lookups
of `SetProxyConfigTask::PopulateProxyConfig`: `GetBoolean`/`GetString`
succeed exactly when the key is present with the right type. -/
structure ProxyDoc where
  noProxy : Option Bool
  autoConfig : Option Bool
  pacUrl : Option String
  bypassList : Option String
  proxyServer : Option String
deriving DecidableEq, Repr

/-- `SetProxyConfigTask::PopulateProxyConfig`: if the `no_proxy` key is
present, make no changes to `pc`; otherwise presence of `auto_config` sets
`auto_detect = true`, and each string key present overwrites the matching
field. -/
def PopulateProxyConfig (dict : ProxyDoc) (pc : ProxyConfig) : ProxyConfig :=
  match dict.noProxy with
  | some _ => pc
  | none =>
      let pc1 := match dict.autoConfig with
        | some _ => { pc with autoDetect := true }
        | none => pc
      let pc2 := match dict.pacUrl with
        | some u => { pc1 with pacUrl := u }
        | none => pc1
      let pc3 := match dict.bypassList with
        | some b => { pc2 with proxyBypass := b }
        | none => pc2
      match dict.proxyServer with
      | some p => { pc3 with proxyRules := p }
      | none => pc3

/-- Result of deserializing the JSON document handed to
`SetProxyConfigTask::Run`. -/
inductive ProxyParseResult
  | parseError
  | notADictionary
  | dictionary (d : ProxyDoc)
deriving DecidableEq, Repr

/-- `SetProxyConfigTask::Run`: on a failed deserialization or a non-dictionary
root, log a warning and bail, leaving the service's configuration alone;
otherwise populate a **fresh default** `net::ProxyConfig` from the dictionary
and install it via `ResetConfigService`, replacing the prior configuration.
Returns the configuration the service ends up with and whether the warning
was logged. -/
def SetProxyConfigRun (parsed : ProxyParseResult) (existing : ProxyConfig) :
    ProxyConfig × Bool :=
  match parsed with
  | ProxyParseResult.parseError => (existing, true)
  | ProxyParseResult.notADictionary => (existing, true)
  | ProxyParseResult.dictionary d => (PopulateProxyConfig d ProxyConfig.fresh, false)

/-- The document `{"no_proxy": true}`. -/
def noProxyTrueDoc : ProxyDoc :=
  { noProxy := some true, autoConfig := none, pacUrl := none,
    bypassList := none, proxyServer := none }

/-- A document that sets `pac_url` and has no `no_proxy` key. -/
def pacOnlyDoc (u : String) : ProxyDoc :=
  { noProxy := none, autoConfig := none, pacUrl := some u,
    bypassList := none, proxyServer := none }

/-- C6 (counterexample): applying `{"no_proxy": true}` to a service whose
prior configuration has auto-detect enabled and a PAC URL does **not** leave
that configuration unchanged — the service's configuration is replaced by a
fresh default one. -/
theorem proxy_no_proxy_not_preserving :
    (SetProxyConfigRun (ProxyParseResult.dictionary noProxyTrueDoc)
        { autoDetect := true, pacUrl := "http://example.com/proxy.pac",
          proxyBypass := "", proxyRules := "" }).1 ≠
      { autoDetect := true, pacUrl := "http://example.com/proxy.pac",
        proxyBypass := "", proxyRules := "" } := by
  intro h
  have h' := congrArg ProxyConfig.autoDetect h
  simp [SetProxyConfigRun, PopulateProxyConfig, ProxyConfig.fresh,
    noProxyTrueDoc] at h'

/-- C6 (amended): applying `{"no_proxy": true}` installs the default
direct-connection configuration, discarding the prior configuration; and
applying a document that sets `pac_url` with no `no_proxy` key installs the
default configuration with only the PAC URL field set, likewise independent
of the prior configuration. -/
theorem proxy_config_replaced_not_merged (existing : ProxyConfig) (u : String) :
    (SetProxyConfigRun (ProxyParseResult.dictionary noProxyTrueDoc)
        existing).1 = ProxyConfig.fresh ∧
    (SetProxyConfigRun (ProxyParseResult.dictionary (pacOnlyDoc u))
        existing).1 = { ProxyConfig.fresh with pacUrl := u } :=
  ⟨rfl, rfl⟩

/-- C7: a document that fails to deserialize as a JSON dictionary is logged
and dropped: the warning is emitted and the prior configuration is kept,
whether deserialization failed outright or produced a non-dictionary. -/
theorem proxy_malformed_rejected (existing : ProxyConfig) :
    SetProxyConfigRun ProxyParseResult.parseError existing = (existing, true) ∧
    SetProxyConfigRun ProxyParseResult.notADictionary existing =
      (existing, true) :=
  ⟨rfl, rfl⟩

/-- Modelled from the spec: the `AutomationResourceTracker` (handle tracker)
implementation is not under `src/`; only its caller contract appears there
(`automation_provider.cc` relies on "Add() returns the existing handle for
the resource if any").  Following §4.1 of the spec, the tracker owns the
handle→resource association: `Add` is idempotent, handles are unique per
resource, and the tracker invalidates a handle when its resource's
destruction is observed.  Resources are identified by `Nat`; `assoc` lists
`(resource, handle)` pairs, most recently added first. -/
structure HandleTracker where
  assoc : List (Nat × Nat)
  nextHandle : Nat
deriving DecidableEq, Repr

def HandleTracker.empty : HandleTracker := { assoc := [], nextHandle := 1 }

/-- Look up the handle already issued for a resource, if any. -/
def findHandle : List (Nat × Nat) → Nat → Option Nat
  | [], _ => none
  | (a, h) :: rest, r => if a = r then some h else findHandle rest r

/-- Modelled from the spec: `Add(resource) -> handle`, idempotent — returns
the existing handle if the resource is already tracked, otherwise issues a
fresh one. -/
def HandleTracker.add (t : HandleTracker) (r : Nat) : HandleTracker × Nat :=
  match findHandle t.assoc r with
  | some h => (t, h)
  | none =>
      ({ assoc := (r, t.nextHandle) :: t.assoc,
         nextHandle := t.nextHandle + 1 }, t.nextHandle)

/-- Modelled from the spec: `ContainsHandle(handle) -> bool`. -/
def HandleTracker.containsHandle (t : HandleTracker) (h : Nat) : Bool :=
  t.assoc.any (fun p => p.2 == h)

/-- Modelled from the spec: the tracker auto-removes a resource's
association when the resource's destruction event fires. -/
def HandleTracker.remove (t : HandleTracker) (r : Nat) : HandleTracker :=
  { assoc := t.assoc.filter (fun p => p.1 != r), nextHandle := t.nextHandle }

/-- A tracker-facing history event: a registration request or a
resource-destroyed notification. -/
inductive TrackerOp
  | add (r : Nat)
  | destroy (r : Nat)
deriving DecidableEq, Repr

def runTracker : HandleTracker → List TrackerOp → HandleTracker
  | t, [] => t
  | t, TrackerOp.add r :: ops => runTracker (t.add r).1 ops
  | t, TrackerOp.destroy r :: ops => runTracker (t.remove r) ops

/-- The tracker state after a history of operations, starting empty. -/
def trackerAt (ops : List TrackerOp) : HandleTracker :=
  runTracker HandleTracker.empty ops

/-- The handle returned by the `Add` call at position `i` of the history
(the call sees the tracker state built from `ops.take i`). -/
def handleReturnedAt (ops : List TrackerOp) (i : Nat) (r : Nat) : Nat :=
  ((trackerAt (ops.take i)).add r).2

/-- Position `i` of the history is an `Add` of resource `r` that has not
since been followed by the destruction of `r`. -/
def addAliveAt (ops : List TrackerOp) (i : Nat) (r : Nat) : Prop :=
  ops[i]? = some (TrackerOp.add r) ∧
  ∀ j, i < j → ops[j]? ≠ some (TrackerOp.destroy r)

lemma findHandle_eq_some_mem {l : List (Nat × Nat)} {r h : Nat}
    (hf : findHandle l r = some h) : (r, h) ∈ l := by
  induction l with
  | nil => simp [findHandle] at hf
  | cons p rest ih =>
      obtain ⟨a, b⟩ := p
      by_cases ha : a = r
      · subst ha
        simp [findHandle] at hf
        simp [hf]
      · simp [findHandle, ha] at hf
        simp [ih hf]

lemma findHandle_eq_none_iff {l : List (Nat × Nat)} {r : Nat} :
    findHandle l r = none ↔ ∀ h, (r, h) ∉ l := by
  induction l with
  | nil => simp [findHandle]
  | cons p rest ih =>
      obtain ⟨a, b⟩ := p
      by_cases ha : a = r
      · subst ha
        constructor
        · intro hf
          simp [findHandle] at hf
        · intro hall
          exact absurd (List.mem_cons_self _ _) (hall b)
      · constructor
        · intro hf h hmem
          rcases List.mem_cons.mp hmem with heq | hmem'
          · exact ha (by injection heq with h1 _; exact h1.symm)
          · exact (ih.mp (by simpa [findHandle, ha] using hf)) h hmem'
        · intro hall
          simp only [findHandle, if_neg ha]
          exact ih.mpr (fun h hmem => hall h (List.mem_cons_of_mem _ hmem))

lemma runTracker_append (t : HandleTracker) (xs ys : List TrackerOp) :
    runTracker t (xs ++ ys) = runTracker (runTracker t xs) ys := by
  induction xs generalizing t with
  | nil => rfl
  | cons x xs ih => cases x <;> simp [runTracker, ih]

lemma addAliveAt_lt_length {ops : List TrackerOp} {i r : Nat}
    (h : addAliveAt ops i r) : i < ops.length := by
  by_contra hc
  push_neg at hc
  have hnone := List.getElem?_eq_none hc
  have h1 := h.1
  rw [hnone] at h1
  exact Option.noConfusion h1

lemma addAliveAt_append_lt {ops : List TrackerOp} {op : TrackerOp} {i : Nat}
    (hi : i < ops.length) (r : Nat) :
    addAliveAt (ops ++ [op]) i r ↔
      addAliveAt ops i r ∧ op ≠ TrackerOp.destroy r := by
  unfold addAliveAt
  rw [List.getElem?_append_left hi]
  constructor
  · rintro ⟨h1, h2⟩
    refine ⟨⟨h1, ?_⟩, ?_⟩
    · intro j hj hc
      rcases Nat.lt_or_ge j ops.length with hjl | hjl
      · exact h2 j hj (by rwa [List.getElem?_append_left hjl])
      · have hn : ops[j]? = none := List.getElem?_eq_none hjl
        rw [hn] at hc
        exact Option.noConfusion hc
    · intro hop
      have hcontra := h2 ops.length (by omega)
      rw [List.getElem?_concat_length, hop] at hcontra
      exact hcontra rfl
  · rintro ⟨⟨h1, h2⟩, hop⟩
    refine ⟨h1, ?_⟩
    intro j hj hc
    rcases Nat.lt_trichotomy j ops.length with hjl | hjl | hjl
    · exact h2 j hj (by rwa [List.getElem?_append_left hjl] at hc)
    · subst hjl
      rw [List.getElem?_concat_length] at hc
      exact hop (Option.some.inj hc)
    · have hn : (ops ++ [op])[j]? = none :=
        List.getElem?_eq_none (by simp; omega)
      rw [hn] at hc
      exact Option.noConfusion hc

lemma addAliveAt_append_last {ops : List TrackerOp} {op : TrackerOp} (r : Nat) :
    addAliveAt (ops ++ [op]) ops.length r ↔ op = TrackerOp.add r := by
  unfold addAliveAt
  rw [List.getElem?_concat_length]
  constructor
  · rintro ⟨h1, _⟩
    exact Option.some.inj h1
  · intro hop
    subst hop
    refine ⟨rfl, ?_⟩
    intro j hj hc
    have hn : (ops ++ [TrackerOp.add r])[j]? = none :=
      List.getElem?_eq_none (by simp; omega)
    rw [hn] at hc
    exact Option.noConfusion hc

lemma handleReturnedAt_append {ops : List TrackerOp} {op : TrackerOp}
    {i : Nat} (hi : i ≤ ops.length) (r : Nat) :
    handleReturnedAt (ops ++ [op]) i r = handleReturnedAt ops i r := by
  unfold handleReturnedAt
  rw [List.take_append_of_le_length hi]

lemma handleReturnedAt_last (ops : List TrackerOp) (op : TrackerOp) (r : Nat) :
    handleReturnedAt (ops ++ [op]) ops.length r = ((trackerAt ops).add r).2 := by
  unfold handleReturnedAt
  rw [List.take_left]

lemma containsHandle_iff_mem (t : HandleTracker) (h : Nat) :
    t.containsHandle h = true ↔ ∃ r, (r, h) ∈ t.assoc := by
  unfold HandleTracker.containsHandle
  rw [List.any_eq_true]
  constructor
  · rintro ⟨⟨a, b⟩, hp, he⟩
    have hb : b = h := by simpa using he
    exact ⟨a, hb ▸ hp⟩
  · rintro ⟨r, hr⟩
    exact ⟨(r, h), hr, by simp⟩

lemma trackerAt_mem_iff (ops : List TrackerOp) (r h : Nat) :
    (r, h) ∈ (trackerAt ops).assoc ↔
      ∃ i, addAliveAt ops i r ∧ handleReturnedAt ops i r = h := by
  induction ops using List.reverseRecOn with
  | nil =>
      simp [trackerAt, runTracker, HandleTracker.empty, addAliveAt]
  | append_singleton ops op ih =>
      have hstep : trackerAt (ops ++ [op]) = runTracker (trackerAt ops) [op] := by
        unfold trackerAt
        rw [runTracker_append]
      cases op with
      | add r0 =>
          rw [hstep]
          show (r, h) ∈ ((trackerAt ops).add r0).1.assoc ↔ _
          cases hf : findHandle (trackerAt ops).assoc r0 with
          | some h0 =>
              have hadd : (trackerAt ops).add r0 = (trackerAt ops, h0) := by
                simp [HandleTracker.add, hf]
              rw [hadd]
              constructor
              · intro hmem
                obtain ⟨i, ha, hh⟩ := ih.mp hmem
                have hi := addAliveAt_lt_length ha
                exact ⟨i, (addAliveAt_append_lt hi r).mpr ⟨ha, by simp⟩,
                  by rw [handleReturnedAt_append (Nat.le_of_lt hi)]; exact hh⟩
              · rintro ⟨i, ha, hh⟩
                have hilen := addAliveAt_lt_length ha
                rw [List.length_append, List.length_singleton] at hilen
                rcases Nat.lt_or_ge i ops.length with hi | hi
                · have ha' := ((addAliveAt_append_lt hi r).mp ha).1
                  rw [handleReturnedAt_append (Nat.le_of_lt hi)] at hh
                  exact ih.mpr ⟨i, ha', hh⟩
                · have hieq : i = ops.length := by omega
                  subst hieq
                  have hr0 : TrackerOp.add r0 = TrackerOp.add r :=
                    (addAliveAt_append_last r).mp ha
                  have hrr : r0 = r := by injection hr0
                  subst hrr
                  rw [handleReturnedAt_last, hadd] at hh
                  have hh' : h0 = h := hh
                  subst hh'
                  exact findHandle_eq_some_mem hf
          | none =>
              have hadd : (trackerAt ops).add r0 =
                  ({ assoc := (r0, (trackerAt ops).nextHandle) ::
                       (trackerAt ops).assoc,
                     nextHandle := (trackerAt ops).nextHandle + 1 },
                   (trackerAt ops).nextHandle) := by
                simp [HandleTracker.add, hf]
              rw [hadd]
              constructor
              · intro hmem
                rcases List.mem_cons.mp hmem with heq | hmem'
                · have hr1 : r = r0 := by injection heq
                  have hh1 : h = (trackerAt ops).nextHandle := by injection heq
                  subst hr1
                  refine ⟨ops.length, (addAliveAt_append_last r).mpr rfl, ?_⟩
                  rw [handleReturnedAt_last, hadd, hh1]
                · obtain ⟨i, ha, hh⟩ := ih.mp hmem'
                  have hi := addAliveAt_lt_length ha
                  exact ⟨i, (addAliveAt_append_lt hi r).mpr ⟨ha, by simp⟩,
                    by rw [handleReturnedAt_append (Nat.le_of_lt hi)]; exact hh⟩
              · rintro ⟨i, ha, hh⟩
                have hilen := addAliveAt_lt_length ha
                rw [List.length_append, List.length_singleton] at hilen
                rcases Nat.lt_or_ge i ops.length with hi | hi
                · have ha' := ((addAliveAt_append_lt hi r).mp ha).1
                  rw [handleReturnedAt_append (Nat.le_of_lt hi)] at hh
                  exact List.mem_cons_of_mem _ (ih.mpr ⟨i, ha', hh⟩)
                · have hieq : i = ops.length := by omega
                  subst hieq
                  have hr0 : TrackerOp.add r0 = TrackerOp.add r :=
                    (addAliveAt_append_last r).mp ha
                  have hrr : r0 = r := by injection hr0
                  subst hrr
                  rw [handleReturnedAt_last, hadd] at hh
                  have hh' : (trackerAt ops).nextHandle = h := hh
                  subst hh'
                  exact List.mem_cons_self _ _
      | destroy r0 =>
          rw [hstep]
          show (r, h) ∈ ((trackerAt ops).remove r0).assoc ↔ _
          unfold HandleTracker.remove
          rw [List.mem_filter]
          constructor
          · rintro ⟨hmem, hne⟩
            have hne' : r ≠ r0 := by simpa using hne
            obtain ⟨i, ha, hh⟩ := ih.mp hmem
            have hi := addAliveAt_lt_length ha
            refine ⟨i, (addAliveAt_append_lt hi r).mpr ⟨ha, ?_⟩, ?_⟩
            · intro hc
              exact hne' (by injection hc.symm)
            · rw [handleReturnedAt_append (Nat.le_of_lt hi)]
              exact hh
          · rintro ⟨i, ha, hh⟩
            have hilen := addAliveAt_lt_length ha
            rw [List.length_append, List.length_singleton] at hilen
            rcases Nat.lt_or_ge i ops.length with hi | hi
            · obtain ⟨ha', hne⟩ := (addAliveAt_append_lt hi r).mp ha
              rw [handleReturnedAt_append (Nat.le_of_lt hi)] at hh
              refine ⟨ih.mpr ⟨i, ha', hh⟩, ?_⟩
              simp only [bne_iff_ne, ne_eq]
              intro hc
              exact hne (by rw [hc])
            · have hieq : i = ops.length := by omega
              subst hieq
              have hcontra := (addAliveAt_append_last r).mp ha
              exact TrackerOp.noConfusion hcontra

/-- C8 (spec-modelled): the handle tracker's `Add` is idempotent — a second
`Add` of the same resource returns the same handle and leaves the tracker
unchanged — and after any history of registrations and resource
destructions, `ContainsHandle h` holds exactly when some `Add` in the
history returned `h` for a resource that has not since been destroyed. -/
theorem handle_tracker_add_idempotent_contains :
    (∀ (t : HandleTracker) (r : Nat),
      ((t.add r).1).add r = ((t.add r).1, (t.add r).2)) ∧
    (∀ (ops : List TrackerOp) (h : Nat),
      (trackerAt ops).containsHandle h = true ↔
        ∃ i r, addAliveAt ops i r ∧ handleReturnedAt ops i r = h) := by
  constructor
  · intro t r
    cases hf : findHandle t.assoc r with
    | some h0 => simp [HandleTracker.add, hf]
    | none => simp [HandleTracker.add, hf, findHandle]
  · intro ops h
    rw [containsHandle_iff_mem]
    constructor
    · rintro ⟨r, hr⟩
      obtain ⟨i, ha, hh⟩ := (trackerAt_mem_iff ops r h).mp hr
      exact ⟨i, r, ha, hh⟩
    · rintro ⟨i, r, ha, hh⟩
      exact ⟨r, (trackerAt_mem_iff ops r h).mpr ⟨i, ha, hh⟩⟩

end Automation
